import Mathlib

/-!
Shallow embedding of `client_chat.py`: an interactive MCP chat client that
connects to a tool server subprocess, forwards user queries to a local
Ollama HTTP endpoint together with the advertised tools, and dispatches the
tool calls the model requests.  Pure data transformations are embedded as
Lean functions; the side-effecting parts (subprocess spawn, HTTP exchange,
tool invocation, printing) are embedded as event traces produced by
deterministic functions parameterised over the external collaborators'
answers.
-/

namespace McpClientChat

/-- JSON-like Python values manipulated by the client (dicts are modelled as
association lists, first binding wins, as `dict` keys are unique). -/
inductive Json where
  | null : Json
  | bool (b : Bool) : Json
  | num (n : Int) : Json
  | str (s : String) : Json
  | arr (elems : List Json) : Json
  | obj (fields : List (String × Json)) : Json

/-- Python `s.strip()`: drop leading and trailing whitespace. -/
def pyStrip (s : String) : String :=
  ⟨((s.data.dropWhile Char.isWhitespace).reverse.dropWhile Char.isWhitespace).reverse⟩

/-- Python `s.lower()`. -/
def pyLower (s : String) : String := ⟨s.data.map Char.toLower⟩

/-- Python `s.endswith(suffix)`. -/
def pyEndsWith (s suffix : String) : Bool := List.isSuffixOf suffix.data s.data

/-- Python truthiness (`bool(x)`) for the values above. -/
def Json.truthy : Json → Bool
  | .null => false
  | .bool b => b
  | .num n => n != 0
  | .str s => s != ""
  | .arr l => !l.isEmpty
  | .obj l => !l.isEmpty

/-- Python `x or y`: `x` when truthy, else `y`. -/
def pyOr (x y : Json) : Json := if x.truthy then x else y

/-- Python `d.get(k)` on a dict: the value when the key is present, else
`None` (modelled as `Json.null`). -/
def dictGet (d : List (String × Json)) (k : String) : Json :=
  (List.lookup k d).getD Json.null

/-- Python `d.get(k, dflt)`. -/
def dictGetD (d : List (String × Json)) (k : String) (dflt : Json) : Json :=
  (List.lookup k d).getD dflt

/-- A tool as reported by `session.list_tools()` (an MCP `Tool`): name,
optional description, JSON input schema. -/
structure ToolDescriptor where
  name : String
  description : Option String
  inputSchema : Json

/-- Python `tool.description or ""` (the `or` falls through on falsy values,
i.e. on `None` and on the empty string). -/
def descOrEmpty (d : Option String) : String :=
  match d with
  | none => ""
  | some s => if s = "" then "" else s

/-- One entry of the `available_tools` list comprehension in
`MCPClient.process_query` (lines 75-84 of `client_chat.py`). -/
def adaptTool (tool : ToolDescriptor) : Json :=
  Json.obj [("type", Json.str "function"),
            ("function", Json.obj
              [("name", Json.str tool.name),
               ("description", Json.str (descOrEmpty tool.description)),
               ("parameters", tool.inputSchema)])]

/-- Observable steps of `MCPClient.connect_to_server`. -/
inductive ConnectEvent where
  | spawn (command : String) (args : List String)
  | handshake
  | listTools
  | printTools (names : List String)

/-- `MCPClient.connect_to_server` (lines 17-36): reject paths that do not
end in `.py` before spawning anything; otherwise spawn `python <path>`,
perform the initialization handshake, list the tools and print their names.
`toolNames` stands for the names the connected server reports. -/
def connect_to_server (toolNames : List String) (server_script_path : String) :
    Except String (List ConnectEvent) :=
  let is_python := pyEndsWith server_script_path ".py"
  if !is_python then
    .error "Server script must be a .py file"
  else
    .ok [ConnectEvent.spawn "python" [server_script_path],
         ConnectEvent.handshake, ConnectEvent.listTools,
         ConnectEvent.printTools toolNames]

/-- The fixed system prompt of `MCPClient.call_ollama` (lines 43-47). -/
def systemPromptText : String :=
  "Puoi rispondere normalmente alle domande dell\x27utente. Se tra gli strumenti disponibili c\x27è qualcosa che può aiutarti a rispondere meglio, usalo. Altrimenti, non usare alcuno strumento."

/-- One element of the `messages` list sent to the model endpoint. -/
structure ChatMessage where
  role : String
  content : String
  deriving DecidableEq

/-- The request body `data` posted by `MCPClient.call_ollama` (lines 53-59). -/
structure OllamaRequest where
  model : String
  messages : List ChatMessage
  tools : List Json
  tool_choice : String
  stream : Bool

/-- The HTTP answer of the model endpoint, as seen by `call_ollama`:
`status`, the parsed JSON body (used on 200) and the raw body text (used in
the non-200 error message). -/
structure HttpResponse where
  status : Nat
  bodyJson : List (String × Json)
  bodyText : String

/-- `MCPClient.call_ollama` (lines 38-71): builds the two-message
conversation and the request body, posts it, and on status 200 returns
`message['tool_calls']` when that key is present, else
`message.get('content', '')`; on any other status raises
`Errore Ollama: <status> - <body>`.  Returns the posted request together
with the outcome.  (A non-dict `message` value would make the Python
`'tool_calls' in message` membership test / subscript fail; that path is
embedded as a `TypeError`.) -/
def call_ollama (query : String) (available_tools : List Json)
    (resp : HttpResponse) : OllamaRequest × Except String Json :=
  let messages : List ChatMessage :=
    [{ role := "system", content := systemPromptText },
     { role := "user", content := query }]
  let data : OllamaRequest :=
    { model := "qwen2.5:7b", messages := messages, tools := available_tools,
      tool_choice := "auto", stream := false }
  let result : Except String Json :=
    if resp.status = 200 then
      match dictGetD resp.bodyJson "message" (Json.obj []) with
      | Json.obj message =>
        match List.lookup "tool_calls" message with
        | some tc => .ok tc
        | none => .ok (dictGetD message "content" (Json.str ""))
      | _ => .error "TypeError: message is not a mapping"
    else
      .error ("Errore Ollama: " ++ toString resp.status ++ " - " ++ resp.bodyText)
  (data, result)

/-- Line 92: `call.get("function", {}).get("name") or call.get("name")`.
If the `function` value is present but not a mapping, the attribute access
`.get` raises (embedded as an `AttributeError`). -/
def resolveName (call : List (String × Json)) : Except String Json :=
  match dictGetD call "function" (Json.obj []) with
  | Json.obj f => .ok (pyOr (dictGet f "name") (dictGet call "name"))
  | _ => .error "AttributeError"

/-- Line 93: `call.get("function", {}).get("arguments") or
call.get("arguments", {})`. -/
def resolveArgsRaw (call : List (String × Json)) : Except String Json :=
  match dictGetD call "function" (Json.obj []) with
  | Json.obj f => .ok (pyOr (dictGet f "arguments")
                            (dictGetD call "arguments" (Json.obj [])))
  | _ => .error "AttributeError"

/-- Line 94: `json.loads(args_raw) if isinstance(args_raw, str) else
args_raw`.  `loads` models the external `json.loads`; `none` stands for a
raised `JSONDecodeError`. -/
def decodeArgs (loads : String → Option Json) (args_raw : Json) :
    Except String Json :=
  match args_raw with
  | Json.str s =>
    match loads s with
    | some j => .ok j
    | none => .error ("JSONDecodeError: " ++ s)
  | j => .ok j

/-- One element of `result.content` for a tool result; `text` is `some`
when the object has a `text` attribute (`getattr(..., 'text', result)`
falls back to the raw result otherwise, modelled as `none`). -/
structure ContentItem where
  text : Option String

/-- The opaque result of `session.call_tool`. -/
structure ToolResult where
  content : List ContentItem

/-- Observable events of one pass through the query pipeline. -/
inductive Event where
  | listTools
  | modelRequest (req : OllamaRequest)
  | printNotice (name : Json) (args : Json)
  | invoke (name : Json) (args : Json)
  | printResult (name : Json) (text : Option String)
  | printModel (content : Json)
  | printQueryError (msg : String)
  | printLoopError (msg : String)

/-- The external collaborators' behaviour during one loop iteration:
what `session.list_tools()` returns (or raises), the HTTP answer of the
model endpoint, `json.loads`, and `session.call_tool`. -/
structure QueryEnv where
  listTools : Except String (List ToolDescriptor)
  resp : HttpResponse
  loads : String → Option Json
  callTool : Json → Json → Except String ToolResult

/-- One iteration of the `for call in content` loop (lines 91-98): resolve
name and raw arguments, decode string arguments, print the notice, invoke
the tool, extract and print the textual result.  Returns the events
produced and the exception, if one was raised. -/
def runCall (env : QueryEnv) (call : Json) : List Event × Option String :=
  match call with
  | Json.obj c =>
    match resolveName c with
    | .error e => ([], some e)
    | .ok name =>
      match resolveArgsRaw c with
      | .error e => ([], some e)
      | .ok args_raw =>
        match decodeArgs env.loads args_raw with
        | .error e => ([], some e)
        | .ok args =>
          match env.callTool name args with
          | .error e => ([Event.printNotice name args, Event.invoke name args], some e)
          | .ok result =>
            match result.content with
            | [] => ([Event.printNotice name args, Event.invoke name args],
                     some "IndexError")
            | item :: _ =>
              ([Event.printNotice name args, Event.invoke name args,
                Event.printResult name item.text], none)
  | _ => ([], some "AttributeError")

/-- The whole `for call in content` loop: stops at the first raised
exception, which propagates to the surrounding `try`. -/
def runCalls (env : QueryEnv) : List Json → List Event × Option String
  | [] => ([], none)
  | call :: rest =>
    match runCall env call with
    | (evs, some e) => (evs, some e)
    | (evs, none) =>
      match runCalls env rest with
      | (evs2, r) => (evs ++ evs2, r)

/-- Message printed by the `except` of `process_query` (line 103). -/
def queryErrorMsg (e : String) : String :=
  "Errore durante la chiamata a Ollama: " ++ e

/-- `MCPClient.process_query` (lines 73-103): list the tools and adapt them
(outside the `try`, so a failure there propagates to the caller), call the
model, and either dispatch the returned tool calls or print the text; any
exception inside the `try` is caught and printed.  Returns the events and
the exception that escaped, if any. -/
def process_query (env : QueryEnv) (query : String) : List Event × Option String :=
  match env.listTools with
  | .error e => ([Event.listTools], some e)
  | .ok tools =>
    let available_tools := tools.map adaptTool
    match call_ollama query available_tools env.resp with
    | (req, .error e) =>
      ([Event.listTools, Event.modelRequest req,
        Event.printQueryError (queryErrorMsg e)], none)
    | (req, .ok content) =>
      match content with
      | Json.arr calls =>
        match runCalls env calls with
        | (evs, none) => ([Event.listTools, Event.modelRequest req] ++ evs, none)
        | (evs, some e) =>
          ([Event.listTools, Event.modelRequest req] ++ evs
            ++ [Event.printQueryError (queryErrorMsg e)], none)
      | c => ([Event.listTools, Event.modelRequest req, Event.printModel c], none)

/-- Message printed by the `except` of `chat_loop` (line 118). -/
def loopErrorMsg (e : String) : String := "Errore: " ++ e

/-- The events of one non-quit loop iteration: what `process_query`
printed, plus the loop-level error print when an exception escaped it. -/
def iterTrace (it : String × QueryEnv) : List Event :=
  match process_query it.2 (pyStrip it.1) with
  | (evs, none) => evs
  | (evs, some e) => evs ++ [Event.printLoopError (loopErrorMsg e)]

/-- `MCPClient.chat_loop` (lines 105-118) run over a list of available
input lines, each paired with the collaborators' behaviour for that
iteration: strip the line, break on the (case-insensitive) quit sentinel,
otherwise process the query, catching and printing any escaped exception
before continuing with the next input. -/
def chat_loop : List (String × QueryEnv) → List Event
  | [] => []
  | (line, env) :: rest =>
    let query := pyStrip line
    if pyLower query = "quit" then []
    else
      match process_query env query with
      | (evs, none) => evs ++ chat_loop rest
      | (evs, some e) => evs ++ [Event.printLoopError (loopErrorMsg e)] ++ chat_loop rest

/-- Top-level events of `main`. -/
inductive TopEvent where
  | connect (e : ConnectEvent)
  | chat (e : Event)
  | cleanup

/-- `main` (lines 123-133), after the argv length check: connect to the
server, run the chat loop, and in all cases run `cleanup` exactly once in
the `finally` (when `connect_to_server` raises, the loop never runs and
the exception propagates after cleanup). -/
def main_run (toolNames : List String) (path : String)
    (iters : List (String × QueryEnv)) : List TopEvent :=
  match connect_to_server toolNames path with
  | .error _ => [TopEvent.cleanup]
  | .ok cevs =>
    (cevs.map TopEvent.connect) ++ ((chat_loop iters).map TopEvent.chat)
      ++ [TopEvent.cleanup]

/-- The name and decoded arguments a tool-call entry resolves to when every
step of lines 92-94 succeeds (`none` when one of them raises). -/
def resolvedCall (loads : String → Option Json) (call : Json) :
    Option (Json × Json) :=
  match call with
  | Json.obj c =>
    match resolveName c, resolveArgsRaw c with
    | .ok name, .ok raw =>
      match decodeArgs loads raw with
      | .ok args => some (name, args)
      | .error _ => none
    | .ok _, .error _ => none
    | .error _, _ => none
  | _ => none

/-- The tool invocations recorded in a trace, in order. -/
def invokeEvents (evs : List Event) : List (Json × Json) :=
  evs.filterMap (fun e => match e with
    | Event.invoke n a => some (n, a)
    | _ => none)

/-! Helper lemmas. -/

/-- Every pass through the `for call in content` body produces one of three
event shapes: nothing (failure before the notice), notice plus invocation
(failure during or right after the call), or the full
notice/invocation/result triple. -/
theorem runCall_events_shape (env : QueryEnv) (call : Json) :
    (runCall env call).1 = []
    ∨ (∃ n a, (runCall env call).1 = [Event.printNotice n a, Event.invoke n a])
    ∨ (∃ n a t, (runCall env call).1
        = [Event.printNotice n a, Event.invoke n a, Event.printResult n t]) := by
  cases call with
  | obj c =>
    cases hn : resolveName c with
    | error e => simp [runCall, hn]
    | ok name =>
      cases ha : resolveArgsRaw c with
      | error e => simp [runCall, hn, ha]
      | ok raw =>
        cases hd : decodeArgs env.loads raw with
        | error e => simp [runCall, hn, ha, hd]
        | ok args =>
          cases hc : env.callTool name args with
          | error e =>
            right; left
            exact ⟨name, args, by simp [runCall, hn, ha, hd, hc]⟩
          | ok result =>
            cases hr : result.content with
            | nil =>
              right; left
              exact ⟨name, args, by simp [runCall, hn, ha, hd, hc, hr]⟩
            | cons item rest =>
              right; right
              exact ⟨name, args, item.text, by simp [runCall, hn, ha, hd, hc, hr]⟩
  | null => simp [runCall]
  | bool b => simp [runCall]
  | num n => simp [runCall]
  | str s => simp [runCall]
  | arr l => simp [runCall]

/-- A `for` body pass that raises no exception resolved the call and
produced exactly the notice, the invocation, and the result print. -/
theorem runCall_ok (env : QueryEnv) (call : Json)
    (h : (runCall env call).2 = none) :
    ∃ n a t, resolvedCall env.loads call = some (n, a)
      ∧ (runCall env call)
          = ([Event.printNotice n a, Event.invoke n a, Event.printResult n t],
             none) := by
  cases call with
  | obj c =>
    cases hn : resolveName c with
    | error e => simp [runCall, hn] at h
    | ok name =>
      cases ha : resolveArgsRaw c with
      | error e => simp [runCall, hn, ha] at h
      | ok raw =>
        cases hd : decodeArgs env.loads raw with
        | error e => simp [runCall, hn, ha, hd] at h
        | ok args =>
          cases hc : env.callTool name args with
          | error e => simp [runCall, hn, ha, hd, hc] at h
          | ok result =>
            cases hr : result.content with
            | nil => simp [runCall, hn, ha, hd, hc, hr] at h
            | cons item rest =>
              refine ⟨name, args, item.text, ?_, ?_⟩
              · simp [resolvedCall, hn, ha, hd]
              · simp [runCall, hn, ha, hd, hc, hr]
  | null => simp [runCall] at h
  | bool b => simp [runCall] at h
  | num n => simp [runCall] at h
  | str s => simp [runCall] at h
  | arr l => simp [runCall] at h

/-- `invokeEvents` distributes over trace concatenation. -/
theorem invokeEvents_append (a b : List Event) :
    invokeEvents (a ++ b) = invokeEvents a ++ invokeEvents b := by
  simp [invokeEvents, List.filterMap_append]

/-- A dispatch pass with no exception records exactly one invocation per
listed call, in list order, at the resolved name and decoded arguments. -/
theorem runCalls_ok_invokes (env : QueryEnv) (calls : List Json)
    (h : (runCalls env calls).2 = none) :
    invokeEvents (runCalls env calls).1
        = calls.filterMap (resolvedCall env.loads)
    ∧ ∀ c ∈ calls, (resolvedCall env.loads c).isSome = true := by
  induction calls with
  | nil => simp [runCalls, invokeEvents]
  | cons c rest ih =>
    rcases hc : runCall env c with ⟨evs, o⟩
    cases o with
    | some e => simp [runCalls, hc] at h
    | none =>
      obtain ⟨n, a, t, hres, hcall⟩ := runCall_ok env c (by rw [hc])
      rw [hc] at hcall
      obtain ⟨rfl, -⟩ := Prod.mk.injEq .. ▸ hcall
      have hrest : (runCalls env rest).2 = none := by
        rcases hr : runCalls env rest with ⟨evs2, o2⟩
        simp only [runCalls, hc, hr] at h
        simpa using h
      obtain ⟨ih1, ih2⟩ := ih hrest
      constructor
      · rcases hr : runCalls env rest with ⟨evs2, o2⟩
        simp only [runCalls, hc, hr]
        rw [hr] at ih1
        simp only [invokeEvents_append]
        rw [List.filterMap_cons, hres]
        simp only [ih1]
        simp [invokeEvents]
      · intro x hx
        rcases List.mem_cons.mp hx with rfl | hx2
        · simp [hres]
        · exact ih2 x hx2

/-- If every resolution succeeds, the invocation list has one entry per
call. -/
theorem filterMap_length_of_isSome {α β : Type} (f : α → Option β) :
    ∀ l : List α, (∀ x ∈ l, (f x).isSome = true) →
      (l.filterMap f).length = l.length := by
  intro l
  induction l with
  | nil => simp
  | cons x rest ih =>
    intro h
    rcases hx : f x with - | y
    · have := h x (List.mem_cons_self x rest)
      rw [hx] at this
      simp at this
    · rw [List.filterMap_cons, hx]
      simp only [List.length_cons]
      rw [ih (fun z hz => h z (List.mem_cons_of_mem x hz))]

/-- The dispatch of a tool-call list never issues a model request. -/
theorem runCalls_no_modelRequest (env : QueryEnv) (calls : List Json)
    (req : OllamaRequest) :
    Event.modelRequest req ∉ (runCalls env calls).1 := by
  induction calls with
  | nil => simp [runCalls]
  | cons c rest ih =>
    have hshape := runCall_events_shape env c
    rcases hc : runCall env c with ⟨evs, o⟩
    rw [hc] at hshape
    have hmem : Event.modelRequest req ∉ evs := by
      rcases hshape with h0 | ⟨n, a, h2⟩ | ⟨n, a, t, h3⟩
      · simp only at h0; subst h0; simp
      · simp only at h2; subst h2; simp
      · simp only at h3; subst h3; simp
    cases o with
    | some e => simpa [runCalls, hc] using hmem
    | none =>
      rcases hr : runCalls env rest with ⟨evs2, o2⟩
      simp only [runCalls, hc, hr]
      rw [hr] at ih
      simp only [List.mem_append]
      rintro (h | h)
      · exact hmem h
      · exact ih h

/-- Once `session.list_tools()` answered, `process_query` lets no exception
escape: the gateway error, the argument-decoding error, the tool-invocation
failure and the result-extraction error are all caught by its `try`. -/
theorem process_query_catches (env : QueryEnv) (query : String)
    (tools : List ToolDescriptor) (h : env.listTools = .ok tools) :
    (process_query env query).2 = none := by
  simp only [process_query, h]
  rcases hco : call_ollama query (tools.map adaptTool) env.resp with ⟨req, res⟩
  cases res with
  | error e => simp
  | ok content =>
    cases content with
    | arr calls =>
      rcases hr : runCalls env calls with ⟨evs, o⟩
      cases o <;> simp [hr]
    | null => simp
    | bool b => simp
    | num n => simp
    | str s => simp
    | obj fields => simp

/-- Shape of the `process_query` trace: either `list_tools` raised (one
event, exception escapes), or the trace is the tools listing, the model
request carrying the built request body, and a tail that contains no
further model request. -/
theorem process_query_events_cases (env : QueryEnv) (query : String) :
    (∃ e, env.listTools = .error e
      ∧ process_query env query = ([Event.listTools], some e))
    ∨ ∃ tools tail, env.listTools = .ok tools
        ∧ (process_query env query).1
            = Event.listTools
              :: Event.modelRequest (call_ollama query (tools.map adaptTool) env.resp).1
              :: tail
        ∧ ∀ r, Event.modelRequest r ∉ tail := by
  cases hlt : env.listTools with
  | error e => exact Or.inl ⟨e, rfl, by simp [process_query, hlt]⟩
  | ok tools =>
    right
    rcases hco : call_ollama query (tools.map adaptTool) env.resp with ⟨req, res⟩
    have hreq : (call_ollama query (tools.map adaptTool) env.resp).1 = req := by
      rw [hco]
    cases res with
    | error e =>
      exact ⟨tools, [Event.printQueryError (queryErrorMsg e)], rfl,
        by simp [process_query, hlt, hco, hreq], by simp⟩
    | ok content =>
      cases content with
      | arr calls =>
        rcases hr : runCalls env calls with ⟨evs, o⟩
        have hnomr : ∀ r, Event.modelRequest r ∉ evs := by
          intro r
          have := runCalls_no_modelRequest env calls r
          rw [hr] at this
          exact this
        cases o with
        | none =>
          exact ⟨tools, evs, rfl,
            by simp [process_query, hlt, hco, hr, hreq], hnomr⟩
        | some e =>
          refine ⟨tools, evs ++ [Event.printQueryError (queryErrorMsg e)], rfl,
            by simp [process_query, hlt, hco, hr, hreq], ?_⟩
          intro r
          simp only [List.mem_append, List.mem_singleton]
          rintro (h | h)
          · exact hnomr r h
          · simp at h
      | null =>
        exact ⟨tools, [Event.printModel Json.null], rfl,
          by simp [process_query, hlt, hco, hreq], by simp⟩
      | bool b =>
        exact ⟨tools, [Event.printModel (Json.bool b)], rfl,
          by simp [process_query, hlt, hco, hreq], by simp⟩
      | num n =>
        exact ⟨tools, [Event.printModel (Json.num n)], rfl,
          by simp [process_query, hlt, hco, hreq], by simp⟩
      | str s =>
        exact ⟨tools, [Event.printModel (Json.str s)], rfl,
          by simp [process_query, hlt, hco, hreq], by simp⟩
      | obj fields =>
        exact ⟨tools, [Event.printModel (Json.obj fields)], rfl,
          by simp [process_query, hlt, hco, hreq], by simp⟩

/-- Every model request recorded by `process_query` carries exactly the
fixed system prompt followed by the current query, and nothing else. -/
theorem process_query_modelRequest (env : QueryEnv) (query : String)
    (req : OllamaRequest) (h : Event.modelRequest req ∈ (process_query env query).1) :
    req.messages = [{ role := "system", content := systemPromptText },
                    { role := "user", content := query }] := by
  rcases process_query_events_cases env query with ⟨e, -, hpq⟩ | ⟨tools, tail, -, hpq, hno⟩
  · rw [hpq] at h
    simp at h
  · rw [hpq] at h
    rcases List.mem_cons.mp h with h1 | h2
    · exact absurd h1 (by simp)
    · rcases List.mem_cons.mp h2 with h3 | h4
      · have hinj := h3
        injection hinj with hinj2
        rw [hinj2]
        rfl
      · exact absurd h4 (hno req)
/-- A quit input line terminates the loop without producing any event. -/
theorem chat_loop_cons_quit (line : String) (env : QueryEnv)
    (rest : List (String × QueryEnv)) (h : pyLower (pyStrip line) = "quit") :
    chat_loop ((line, env) :: rest) = [] := by
  simp [chat_loop, h]

/-- A non-quit input line contributes its iteration trace and the loop
continues with the remaining inputs. -/
theorem chat_loop_cons_ne (line : String) (env : QueryEnv)
    (rest : List (String × QueryEnv)) (h : pyLower (pyStrip line) ≠ "quit") :
    chat_loop ((line, env) :: rest) = iterTrace (line, env) ++ chat_loop rest := by
  simp only [chat_loop, if_neg h, iterTrace]
  rcases hpq : process_query env (pyStrip line) with ⟨evs, o⟩
  cases o with
  | none => simp
  | some e => simp

/-- As long as no quit sentinel appears, the loop consumes every input and
its trace is the concatenation of the iteration traces. -/
theorem chat_loop_append_no_quit (pre rest : List (String × QueryEnv))
    (h : ∀ it ∈ pre, pyLower (pyStrip (it : String × QueryEnv).1) ≠ "quit") :
    chat_loop (pre ++ rest) = (pre.map iterTrace).flatten ++ chat_loop rest := by
  induction pre with
  | nil => simp
  | cons it pre ih =>
    rcases it with ⟨line, env⟩
    rw [List.cons_append,
        chat_loop_cons_ne line env (pre ++ rest) (h _ (List.mem_cons_self ..)),
        ih (fun x hx => h x (List.mem_cons_of_mem _ hx))]
    simp

/-! Concrete sample collaborators, used by the witness theorems. -/

/-- A sample tool with no description. -/
def wTool : ToolDescriptor :=
  { name := "get_weather", description := none, inputSchema := Json.obj [] }

/-- A sample `json.loads` recognising one argument string. -/
def wLoads : String → Option Json := fun s =>
  if s = "rome" then some (Json.obj [("city", Json.str "Rome")]) else none

/-- A sample `session.call_tool` always answering one text item. -/
def wInvoke : Json → Json → Except String ToolResult := fun _ _ =>
  .ok { content := [{ text := some "sunny" }] }

/-- A well-formed tool-call entry whose arguments are an encoded string. -/
def wCall : Json :=
  Json.obj [("function", Json.obj
    [("name", Json.str "get_weather"),
     ("arguments", Json.str "rome")])]

/-- A tool-call entry whose argument string `json.loads` rejects. -/
def wBadCall : Json :=
  Json.obj [("function", Json.obj
    [("name", Json.str "get_weather"),
     ("arguments", Json.str "oops")])]

/-- A 200 answer whose message requests the malformed call. -/
def wRespTC : HttpResponse :=
  { status := 200,
    bodyJson := [("message", Json.obj [("tool_calls", Json.arr [wBadCall])])],
    bodyText := "" }

/-- A 200 answer whose message is plain text. -/
def wRespText : HttpResponse :=
  { status := 200,
    bodyJson := [("message", Json.obj [("content", Json.str "Hello!")])],
    bodyText := "" }

/-- Iteration environment delivering the malformed tool call. -/
def wEnvTC : QueryEnv :=
  { listTools := .ok [wTool], resp := wRespTC, loads := wLoads,
    callTool := wInvoke }

/-- Iteration environment delivering the text answer. -/
def wEnvText : QueryEnv :=
  { listTools := .ok [wTool], resp := wRespText, loads := wLoads,
    callTool := wInvoke }

/-- The connect events of a successful `connect_to_server "server.py"`. -/
def wConnEvs : List ConnectEvent :=
  [ConnectEvent.spawn "python" ["server.py"], ConnectEvent.handshake,
   ConnectEvent.listTools, ConnectEvent.printTools ["get_weather"]]

/-! Claims. -/

/-- C2: for every model-endpoint response with HTTP status 200, `call_ollama`
returns the message's `tool_calls` value verbatim when that key is present,
otherwise the message's `content` value, substituting the empty string when
`content` is absent. -/
theorem C2_gateway_200 (query : String) (ats : List Json)
    (resp : HttpResponse) (m : List (String × Json))
    (h200 : resp.status = 200)
    (hm : dictGetD resp.bodyJson "message" (Json.obj []) = Json.obj m) :
    (∀ tc, List.lookup "tool_calls" m = some tc →
        (call_ollama query ats resp).2 = .ok tc)
    ∧ (List.lookup "tool_calls" m = none →
        (call_ollama query ats resp).2
          = .ok (dictGetD m "content" (Json.str "")))
    ∧ (List.lookup "tool_calls" m = none → List.lookup "content" m = none →
        (call_ollama query ats resp).2 = .ok (Json.str "")) := by
  refine ⟨?_, ?_, ?_⟩
  · intro tc htc
    simp [call_ollama, h200, hm, htc]
  · intro htc
    simp [call_ollama, h200, hm, htc]
  · intro htc hc
    have hm2 : (List.lookup "message" resp.bodyJson).getD (Json.obj [])
        = Json.obj m := hm
    simp [call_ollama, h200, dictGetD, hm2, htc, hc]

/-- Witness for C2 on a concrete 200 text answer. -/
theorem C2_gateway_200_witness :
    (call_ollama "hi" [] wRespText).2
      = .ok (dictGetD [("content", Json.str "Hello!")] "content" (Json.str "")) :=
  (C2_gateway_200 "hi" [] wRespText [("content", Json.str "Hello!")] rfl rfl).2.1 rfl

/-- C3: for every model-endpoint response with a status other than 200,
`call_ollama` raises an error carrying exactly the received status code and
body text, and returns no value. -/
theorem C3_gateway_error (query : String) (ats : List Json)
    (resp : HttpResponse) (h : resp.status ≠ 200) :
    (call_ollama query ats resp).2
      = .error ("Errore Ollama: " ++ toString resp.status ++ " - " ++ resp.bodyText)
    ∧ ∀ v, (call_ollama query ats resp).2 ≠ .ok v := by
  have h1 : (call_ollama query ats resp).2
      = .error ("Errore Ollama: " ++ toString resp.status ++ " - " ++ resp.bodyText) := by
    simp [call_ollama, h]
  refine ⟨h1, ?_⟩
  intro v hv
  rw [h1] at hv
  cases hv

/-- Witness for C3 on a concrete 500 answer with body `internal error`. -/
theorem C3_gateway_error_witness :
    (call_ollama "hi" []
        { status := 500, bodyJson := [], bodyText := "internal error" }).2
      = .error ("Errore Ollama: " ++ toString (500 : Nat) ++ " - " ++ "internal error") :=
  (C3_gateway_error "hi" []
    { status := 500, bodyJson := [], bodyText := "internal error" }
    (by decide)).1

/-- C6: the tool adapter preserves the count and order of the listed tools,
emits the `function`-typed descriptor with the tool's name and input schema,
and substitutes the empty string for a missing description. -/
theorem C6_adapter_shape (ts : List ToolDescriptor) :
    (ts.map adaptTool).length = ts.length
    ∧ (∀ i : Nat, (ts.map adaptTool)[i]? = ts[i]?.map adaptTool)
    ∧ (∀ t : ToolDescriptor, adaptTool t
        = Json.obj [("type", Json.str "function"),
            ("function", Json.obj
              [("name", Json.str t.name),
               ("description", Json.str (descOrEmpty t.description)),
               ("parameters", t.inputSchema)])])
    ∧ (∀ t : ToolDescriptor, t.description = none →
        descOrEmpty t.description = "") := by
  refine ⟨List.length_map .., ?_, fun t => rfl, ?_⟩
  · intro i
    exact List.getElem?_map ..
  · intro t h
    rw [h]
    rfl

/-- Witness for C6 on a one-tool list with a missing description. -/
theorem C6_adapter_shape_witness :
    ([wTool].map adaptTool).length = [wTool].length
    ∧ descOrEmpty wTool.description = "" :=
  ⟨(C6_adapter_shape [wTool]).1, (C6_adapter_shape [wTool]).2.2.2 wTool rfl⟩

/-- C7: for every script path that does not end in `.py`, `connect_to_server`
raises `Server script must be a .py file`, and no subprocess spawn, handshake
or tool listing occurs (no event list is produced). -/
theorem C7_invalid_script (toolNames : List String) (path : String)
    (h : pyEndsWith path ".py" = false) :
    connect_to_server toolNames path
        = .error "Server script must be a .py file"
    ∧ ∀ evs, connect_to_server toolNames path ≠ .ok evs := by
  have h1 : connect_to_server toolNames path
      = .error "Server script must be a .py file" := by
    simp [connect_to_server, h]
  refine ⟨h1, ?_⟩
  intro evs hevs
  rw [h1] at hevs
  cases hevs

/-- Witness for C7 on the path `server.txt`. -/
theorem C7_invalid_script_witness :
    connect_to_server ["get_weather"] "server.txt"
      = .error "Server script must be a .py file" :=
  (C7_invalid_script ["get_weather"] "server.txt" (by decide)).1

/-- C9: a tool-call entry's name comes from the nested `function.name` field
when present and truthy, else from the top-level `name` field; likewise the
arguments come from `function.arguments` when present and truthy, else from
the top-level `arguments` field, defaulting to the empty mapping — so both
the nested and the flat shape are accepted, nested taking precedence. -/
theorem C9_call_shapes (call : List (String × Json)) (f : List (String × Json))
    (hf : dictGetD call "function" (Json.obj []) = Json.obj f) :
    ((dictGet f "name").truthy = true →
        resolveName call = .ok (dictGet f "name"))
    ∧ ((dictGet f "name").truthy = false →
        resolveName call = .ok (dictGet call "name"))
    ∧ ((dictGet f "arguments").truthy = true →
        resolveArgsRaw call = .ok (dictGet f "arguments"))
    ∧ ((dictGet f "arguments").truthy = false →
        resolveArgsRaw call = .ok (dictGetD call "arguments" (Json.obj [])))
    ∧ (List.lookup "arguments" f = none → List.lookup "arguments" call = none →
        resolveArgsRaw call = .ok (Json.obj [])) := by
  refine ⟨?_, ?_, ?_, ?_, ?_⟩
  · intro h
    simp [resolveName, hf, pyOr, h]
  · intro h
    simp [resolveName, hf, pyOr, h]
  · intro h
    simp [resolveArgsRaw, hf, pyOr, h]
  · intro h
    simp [resolveArgsRaw, hf, pyOr, h]
  · intro hfa hca
    have h : (dictGet f "arguments").truthy = false := by
      simp [dictGet, hfa, Json.truthy]
    have hf2 : (List.lookup "function" call).getD (Json.obj [])
        = Json.obj f := hf
    simp [resolveArgsRaw, dictGetD, hf2, pyOr, h, hca]

/-- Witness for C9 on a nested-shape call entry. -/
theorem C9_call_shapes_witness :
    resolveName [("function", Json.obj
        [("name", Json.str "get_weather"), ("arguments", Json.str "rome")])]
      = .ok (dictGet [("name", Json.str "get_weather"),
                      ("arguments", Json.str "rome")] "name") :=
  (C9_call_shapes
    [("function", Json.obj
      [("name", Json.str "get_weather"), ("arguments", Json.str "rome")])]
    [("name", Json.str "get_weather"), ("arguments", Json.str "rome")]
    rfl).1 (by decide)

/-- C10: each input line is stripped of surrounding whitespace before any
other processing; the stripped string is what is compared case-insensitively
against the quit sentinel, and, when it is not the sentinel, what is
forwarded as the user query to the model request. -/
theorem C10_strip_first (line : String) (env : QueryEnv)
    (rest : List (String × QueryEnv)) :
    (pyLower (pyStrip line) = "quit" → chat_loop ((line, env) :: rest) = [])
    ∧ (pyLower (pyStrip line) ≠ "quit" →
        chat_loop ((line, env) :: rest) = iterTrace (line, env) ++ chat_loop rest
        ∧ ∀ req, Event.modelRequest req ∈ iterTrace (line, env) →
            req.messages
              = [{ role := "system", content := systemPromptText },
                 { role := "user", content := pyStrip line }]) := by
  constructor
  · exact chat_loop_cons_quit line env rest
  · intro h
    refine ⟨chat_loop_cons_ne line env rest h, ?_⟩
    intro req hreq
    have hsub : Event.modelRequest req ∈ (process_query env (pyStrip line)).1 := by
      rcases hp : process_query env (pyStrip line) with ⟨evs, o⟩
      revert hreq
      cases o with
      | none =>
        simp only [iterTrace, hp]
        intro hreq
        exact hreq
      | some e =>
        simp only [iterTrace, hp]
        intro hreq
        rcases List.mem_append.mp hreq with h1 | h2
        · exact h1
        · simp at h2
    exact process_query_modelRequest env (pyStrip line) req hsub

/-- Witness for C10 on a quit line and on a padded query line. -/
theorem C10_strip_first_witness :
    chat_loop [("  QUIT  ", wEnvText)] = []
    ∧ chat_loop [(" hi ", wEnvText)]
        = iterTrace (" hi ", wEnvText) ++ chat_loop [] :=
  ⟨(C10_strip_first "  QUIT  " wEnvText []).1 (by decide),
   ((C10_strip_first " hi " wEnvText []).2 (by decide)).1⟩

/-- C4: every exception raised while processing one iteration is caught —
errors inside the `try` of `process_query` never escape it, an exception
escaping `process_query` is printed by the loop's handler — and the loop
then continues: as long as no quit sentinel is read, every input is
consumed, so no processing error ever terminates the session. -/
theorem C4_loop_resilience :
    (∀ iters : List (String × QueryEnv),
      (∀ it ∈ iters, pyLower (pyStrip (it : String × QueryEnv).1) ≠ "quit") →
      chat_loop iters = (iters.map iterTrace).flatten)
    ∧ (∀ (line : String) (env : QueryEnv) (rest : List (String × QueryEnv))
        (e : String),
        pyLower (pyStrip line) ≠ "quit" →
        (process_query env (pyStrip line)).2 = some e →
        Event.printLoopError (loopErrorMsg e) ∈ chat_loop ((line, env) :: rest)
        ∧ chat_loop ((line, env) :: rest)
            = iterTrace (line, env) ++ chat_loop rest)
    ∧ (∀ (env : QueryEnv) (query : String) (tools : List ToolDescriptor),
        env.listTools = .ok tools → (process_query env query).2 = none) := by
  refine ⟨?_, ?_, ?_⟩
  · intro iters h
    have := chat_loop_append_no_quit iters [] h
    simpa [chat_loop] using this
  · intro line env rest e hq hpq
    have hcont := chat_loop_cons_ne line env rest hq
    refine ⟨?_, hcont⟩
    rw [hcont]
    have hiter : iterTrace (line, env)
        = (process_query env (pyStrip line)).1
          ++ [Event.printLoopError (loopErrorMsg e)] := by
      rcases hp : process_query env (pyStrip line) with ⟨evs, o⟩
      rw [hp] at hpq
      simp only at hpq
      subst hpq
      simp [iterTrace, hp]
    rw [hiter]
    simp
  · exact process_query_catches

/-- Witness for C4: a non-quit iteration is fully consumed, and a query
against a live tool listing lets no exception escape. -/
theorem C4_loop_resilience_witness :
    chat_loop [("hi", wEnvText)] = ([("hi", wEnvText)].map iterTrace).flatten
    ∧ (process_query wEnvText "x").2 = none :=
  ⟨C4_loop_resilience.1 [("hi", wEnvText)]
      (by
        intro it hit
        rw [List.mem_singleton] at hit
        subst hit
        decide),
   C4_loop_resilience.2.2 wEnvText "x" [wTool] rfl⟩

/-- Whether a top-level event is the Transport Session cleanup. -/
def isCleanupEv : TopEvent → Bool
  | TopEvent.cleanup => true
  | _ => false

/-- C5: a quit input (case-insensitive, whitespace ignored) terminates the
loop: the session trace consists of the connect events, the events of the
iterations before the quit line, and exactly one cleanup — no tool listing,
model request or tool invocation happens at or after the quit line. -/
theorem C5_quit_cleanup (toolNames : List String) (path : String)
    (cevs : List ConnectEvent) (pre : List (String × QueryEnv))
    (line : String) (env : QueryEnv) (post : List (String × QueryEnv))
    (hconn : connect_to_server toolNames path = .ok cevs)
    (hpre : ∀ it ∈ pre, pyLower (pyStrip (it : String × QueryEnv).1) ≠ "quit")
    (hquit : pyLower (pyStrip line) = "quit") :
    main_run toolNames path (pre ++ (line, env) :: post)
      = (cevs.map TopEvent.connect)
        ++ (((pre.map iterTrace).flatten).map TopEvent.chat)
        ++ [TopEvent.cleanup]
    ∧ (main_run toolNames path (pre ++ (line, env) :: post)).countP isCleanupEv = 1
    ∧ ∀ ev, TopEvent.chat ev ∈ main_run toolNames path (pre ++ (line, env) :: post) →
        ev ∈ (pre.map iterTrace).flatten := by
  have hcl : chat_loop (pre ++ (line, env) :: post) = (pre.map iterTrace).flatten := by
    rw [chat_loop_append_no_quit pre _ hpre,
        chat_loop_cons_quit line env post hquit, List.append_nil]
  have hmain : main_run toolNames path (pre ++ (line, env) :: post)
      = (cevs.map TopEvent.connect)
        ++ (((pre.map iterTrace).flatten).map TopEvent.chat)
        ++ [TopEvent.cleanup] := by
    simp [main_run, hconn, hcl]
  refine ⟨hmain, ?_, ?_⟩
  · rw [hmain]
    have h1 : (cevs.map TopEvent.connect).countP isCleanupEv = 0 := by
      rw [List.countP_eq_zero]
      intro a ha
      rw [List.mem_map] at ha
      obtain ⟨x, -, rfl⟩ := ha
      simp [isCleanupEv]
    have h2 : ((((pre.map iterTrace).flatten).map TopEvent.chat)).countP isCleanupEv = 0 := by
      rw [List.countP_eq_zero]
      intro a ha
      rw [List.mem_map] at ha
      obtain ⟨x, -, rfl⟩ := ha
      simp [isCleanupEv]
    rw [List.countP_append, List.countP_append, h1, h2]
    rfl
  · intro ev hev
    rw [hmain] at hev
    simp only [List.mem_append, List.mem_map, List.mem_singleton] at hev
    rcases hev with (⟨x, -, hxe⟩ | ⟨x, hx, hxe⟩) | hlast
    · cases hxe
    · cases hxe
      exact hx
    · cases hlast

/-- Witness for C5: one quit line right away, with a successful connect. -/
theorem C5_quit_cleanup_witness :
    main_run ["get_weather"] "server.py" [("  QUIT  ", wEnvText)]
      = (wConnEvs.map TopEvent.connect)
        ++ ((((List.nil : List (String × QueryEnv)).map iterTrace).flatten).map TopEvent.chat)
        ++ [TopEvent.cleanup]
    ∧ (main_run ["get_weather"] "server.py" [("  QUIT  ", wEnvText)]).countP isCleanupEv = 1 := by
  have h := C5_quit_cleanup ["get_weather"] "server.py" wConnEvs []
    "  QUIT  " wEnvText [] rfl (by simp) (by decide)
  exact ⟨h.1, h.2.1⟩

/-- C8: every request posted to the model endpoint carries exactly two
messages — the fixed system prompt followed by the current user query — and
in a whole interactive session every recorded model request's messages are
the system prompt plus that iteration's (stripped) input line, so no
conversation history is ever included. -/
theorem C8_two_messages :
    (∀ (query : String) (ats : List Json) (resp : HttpResponse),
      (call_ollama query ats resp).1.messages
          = [{ role := "system", content := systemPromptText },
             { role := "user", content := query }]
      ∧ (call_ollama query ats resp).1.messages.length = 2)
    ∧ (∀ (iters : List (String × QueryEnv)) (req : OllamaRequest),
        Event.modelRequest req ∈ chat_loop iters →
        ∃ it ∈ iters, req.messages
            = [{ role := "system", content := systemPromptText },
               { role := "user",
                 content := pyStrip (it : String × QueryEnv).1 }]) := by
  constructor
  · intro query ats resp
    exact ⟨rfl, rfl⟩
  · intro iters
    induction iters with
    | nil =>
      intro req h
      simp [chat_loop] at h
    | cons it rest ih =>
      intro req h
      rcases it with ⟨line, env⟩
      by_cases hq : pyLower (pyStrip line) = "quit"
      · rw [chat_loop_cons_quit line env rest hq] at h
        simp at h
      · rw [chat_loop_cons_ne line env rest hq] at h
        rcases List.mem_append.mp h with h1 | h2
        · have hmem : Event.modelRequest req ∈ (process_query env (pyStrip line)).1 := by
            rcases hp : process_query env (pyStrip line) with ⟨evs, o⟩
            revert h1
            cases o with
            | none =>
              simp only [iterTrace, hp]
              intro h1
              exact h1
            | some e =>
              simp only [iterTrace, hp]
              intro h1
              rcases List.mem_append.mp h1 with h3 | h4
              · exact h3
              · simp at h4
          exact ⟨(line, env), List.mem_cons_self ..,
            process_query_modelRequest env (pyStrip line) req hmem⟩
        · obtain ⟨it2, hit2, hmsg⟩ := ih req h2
          exact ⟨it2, List.mem_cons_of_mem _ hit2, hmsg⟩

/-- Witness for C8: the single model request of a one-iteration session
carries the system prompt and the stripped input. -/
theorem C8_two_messages_witness :
    ∃ it ∈ [("hi", wEnvText)],
      (call_ollama "hi" ([wTool].map adaptTool) wRespText).1.messages
        = [{ role := "system", content := systemPromptText },
           { role := "user",
             content := pyStrip (it : String × QueryEnv).1 }] :=
  C8_two_messages.2 [("hi", wEnvText)]
    (call_ollama "hi" ([wTool].map adaptTool) wRespText).1
    (by
      have hcl : chat_loop [("hi", wEnvText)]
          = [Event.listTools,
             Event.modelRequest
               (call_ollama "hi" ([wTool].map adaptTool) wRespText).1,
             Event.printModel (Json.str "Hello!")] := rfl
      rw [hcl]
      exact List.mem_cons_of_mem _ (List.mem_cons_self ..))

/-- C1: when the model answers with a list of tool-call requests, the
dispatch loop invokes each listed tool exactly once, in list order, at the
resolved name and the decoded arguments (string arguments going through
`json.loads` before invocation); and when one call's argument string is
malformed, the decode error is caught and printed and the chat loop goes on
to the next input instead of crashing. -/
theorem C1_dispatch_tool_calls :
    (∀ (env : QueryEnv) (calls : List Json),
      (runCalls env calls).2 = none →
        invokeEvents (runCalls env calls).1
            = calls.filterMap (resolvedCall env.loads)
        ∧ (calls.filterMap (resolvedCall env.loads)).length = calls.length
        ∧ (∀ (cobj : List (String × Json)) (s : String) (n a : Json),
            resolveArgsRaw cobj = .ok (Json.str s) →
            resolvedCall env.loads (Json.obj cobj) = some (n, a) →
            env.loads s = some a))
    ∧ (∀ (line : String) (env : QueryEnv) (rest : List (String × QueryEnv))
        (tools : List ToolDescriptor) (m : List (String × Json))
        (calls : List Json) (evs : List Event) (e : String),
        pyLower (pyStrip line) ≠ "quit" →
        env.listTools = .ok tools →
        env.resp.status = 200 →
        dictGetD env.resp.bodyJson "message" (Json.obj []) = Json.obj m →
        List.lookup "tool_calls" m = some (Json.arr calls) →
        runCalls env calls = (evs, some e) →
        chat_loop ((line, env) :: rest)
          = Event.listTools
            :: Event.modelRequest
                 (call_ollama (pyStrip line) (tools.map adaptTool) env.resp).1
            :: (evs ++ [Event.printQueryError (queryErrorMsg e)])
            ++ chat_loop rest) := by
  constructor
  · intro env calls hok
    obtain ⟨h1, h2⟩ := runCalls_ok_invokes env calls hok
    refine ⟨h1, filterMap_length_of_isSome _ calls h2, ?_⟩
    intro cobj s n a hargs hres
    cases hn : resolveName cobj with
    | error e2 => simp [resolvedCall, hn] at hres
    | ok name =>
      cases hl : env.loads s with
      | none => simp [resolvedCall, hn, hargs, decodeArgs, hl] at hres
      | some j =>
        simp [resolvedCall, hn, hargs, decodeArgs, hl] at hres
        rw [hres.2]
  · intro line env rest tools m calls evs e hq hlt h200 hm htc hrc
    have hres2 : (call_ollama (pyStrip line) (tools.map adaptTool) env.resp).2
        = .ok (Json.arr calls) := by
      simp [call_ollama, h200, hm, htc]
    have hiter : iterTrace (line, env)
        = Event.listTools
          :: Event.modelRequest
               (call_ollama (pyStrip line) (tools.map adaptTool) env.resp).1
          :: (evs ++ [Event.printQueryError (queryErrorMsg e)]) := by
      have hpq : process_query env (pyStrip line)
          = (Event.listTools
              :: Event.modelRequest
                   (call_ollama (pyStrip line) (tools.map adaptTool) env.resp).1
              :: (evs ++ [Event.printQueryError (queryErrorMsg e)]), none) := by
        rcases hco : call_ollama (pyStrip line) (tools.map adaptTool) env.resp
          with ⟨req, res⟩
        have hr2 : res = .ok (Json.arr calls) := by
          rw [hco] at hres2
          exact hres2
        subst hr2
        simp [process_query, hlt, hco, hrc]
      simp [iterTrace, hpq]
    rw [chat_loop_cons_ne line env rest hq, hiter]

/-- Witness for C1: a well-formed call is invoked once at its decoded
arguments, and a malformed argument string is caught, printed, and followed
by the next loop iteration. -/
theorem C1_dispatch_tool_calls_witness :
    ((runCalls wEnvText [wCall]).2 = none
      ∧ invokeEvents (runCalls wEnvText [wCall]).1
          = [wCall].filterMap (resolvedCall wEnvText.loads))
    ∧ chat_loop [("hi", wEnvTC)]
        = Event.listTools
          :: Event.modelRequest
               (call_ollama (pyStrip "hi") ([wTool].map adaptTool) wEnvTC.resp).1
          :: (([] : List Event)
                ++ [Event.printQueryError (queryErrorMsg "JSONDecodeError: oops")])
          ++ chat_loop [] :=
  ⟨⟨rfl, (C1_dispatch_tool_calls.1 wEnvText [wCall] rfl).1⟩,
   C1_dispatch_tool_calls.2 "hi" wEnvTC [] [wTool]
     [("tool_calls", Json.arr [wBadCall])] [wBadCall] [] "JSONDecodeError: oops"
     (by decide) rfl rfl rfl rfl rfl⟩

end McpClientChat
